import Mathlib

/-!
Shallow embedding of the analytical core of the z80dismblr disassembler:
`src/memory.ts` (the `Memory` class: byte store, attribute bitmap, opcode
decoding at an address) and `src/disassembler/regs.ts` (the `Regs` class:
per-path register-usage state with bank exchanges, cloning and merging).

JavaScript numbers are embedded as `Nat`/`Int`; the `& 0xFFFF` masks of the
source are written `% 65536`, and `Uint8Array` coercion on store is `% 256`.
A JavaScript array read past the end yields `undefined`; the attribute array
(`memoryAttr`) is therefore embedded as `Nat → Option Nat`, `none` standing
for `undefined`, and `undefined | attr` (which evaluates to `attr` in
JavaScript) is `(·.getD 0) ||| attr`.  A failing `assert(...)` aborts the
process; a function that can hit one returns `Option`, `none` standing for
the abort.
-/

namespace Z80

/-- Source `MAX_MEM_SIZE = 0x10000` from src/memory.ts. -/
def MAX_MEM_SIZE : Nat := 65536

namespace MemAttribute

/-- Unassigned memory. -/
def UNUSED : Nat := 0

/-- Unknown area (code or data). -/
def ASSIGNED : Nat := 0x01

/-- Code area. -/
def CODE : Nat := 0x02

/-- First byte of an opcode. -/
def CODE_FIRST : Nat := 0x04

/-- Data area. -/
def DATA : Nat := 0x08

end MemAttribute

/-- The `Memory` class of src/memory.ts: a 64K `Uint8Array` of bytes
(`memory`), read only through `% 65536`-masked indices, and a plain
JavaScript array of attribute bitmasks (`memoryAttr`), whose entries are
`some v` where initialised/written and `none` (JavaScript `undefined`)
past the end of the array. -/
structure Memory where
  memory : Nat → Nat
  memoryAttr : Nat → Option Nat

/-- The constructor of `Memory`: bytes all 0, attributes `UNUSED` on the
64K index range (and `undefined` beyond, as for any JavaScript array). -/
def Memory.init : Memory :=
  { memory := fun _ => 0,
    memoryAttr := fun a => if a < MAX_MEM_SIZE then some MemAttribute.UNUSED else none }

/-- Source `Memory.getValueAt`: `memory[address & 0xFFFF]`. -/
def Memory.getValueAt (m : Memory) (address : Nat) : Nat :=
  m.memory (address % MAX_MEM_SIZE)

/-- Source `Memory.getWordValueAt`:
`memory[address & 0xFFFF] + 256 * memory[(address+1) & 0xFFFF]`. -/
def Memory.getWordValueAt (m : Memory) (address : Nat) : Nat :=
  m.memory (address % MAX_MEM_SIZE) + 256 * m.memory ((address + 1) % MAX_MEM_SIZE)

/-- Source `Memory.setMemory`: for `i < size`, store byte `i` at
`(origin+i) & 0xFFFF` (the `Uint8Array` coerces the value `% 256`) and OR
`ASSIGNED` into the attribute at the same masked address. -/
def Memory.setMemory (m : Memory) (origin : Nat) (bytes : List Nat) : Memory :=
  (List.range bytes.length).foldl
    (fun acc i =>
      { memory := fun a =>
          if a = (origin + i) % MAX_MEM_SIZE then bytes.getD i 0 % 256 else acc.memory a,
        memoryAttr := fun a =>
          if a = (origin + i) % MAX_MEM_SIZE then
            some ((acc.memoryAttr a).getD 0 ||| MemAttribute.ASSIGNED)
          else acc.memoryAttr a })
    m

/-- Source `Memory.getAttributeAt`: `memoryAttr[address]` — note: the source reads
the raw, unmasked index (`this.memoryAttr[address++]`); past the 64K array
this is `undefined`, i.e. `none`. -/
def Memory.getAttributeAt (m : Memory) (address : Nat) : Option Nat :=
  m.memoryAttr address

/-- Source `Memory.addAttributeAt`: `for i in [0,length): memoryAttr[address++] |= attr`.
The source uses the raw, unmasked indices `address, address+1, …`; each index
in the range is written exactly once, OR-ing `attr` into the old entry
(`undefined` coerces to 0). -/
def Memory.addAttributeAt (m : Memory) (address length attr : Nat) : Memory :=
  { m with memoryAttr := fun a =>
      if address ≤ a ∧ a < address + length then
        some ((m.memoryAttr a).getD 0 ||| attr)
      else m.memoryAttr a }

/-- Modelled from the spec: the `LabelType` enum lives in src/label.ts, which
is not part of the provided sources.  Its constructors are the ones
`Memory.getOpcodeAt` matches on, plus `UNRECOGNIZED` standing for any operand
kind outside that rule set ("Any operand kind not recognized by this rule set
is a programming-contract violation"). -/
inductive LabelType
  | NONE
  | CODE_LBL
  | CODE_SUB
  | CODE_RELATIVE_LBL
  | CODE_RELATIVE_LOOP
  | DATA_LBL
  | NUMBER_WORD
  | NUMBER_BYTE
  | PORT_LBL
  | UNRECOGNIZED
  deriving DecidableEq

/-- Modelled from the spec: the `Opcode` class lives in src/opcodes.ts, not
part of the provided sources; `Memory.getOpcodeAt` only uses its `valueType`
field and assigns its `value` field, so it is embedded as that record.  The
opcode table `Opcode.fromValue` stays abstract: the functions below take it
as a parameter `fromValue : Nat → Opcode`. -/
structure Opcode where
  valueType : LabelType
  value : Int
  deriving DecidableEq

/-- The operand kinds recognised by the `switch` of `Memory.getOpcodeAt`:
no-operand, the four word-valued kinds, the two signed-byte relative kinds,
the signed numeric byte and the port byte. -/
def recognizedKind : LabelType → Bool
  | .NONE => true
  | .CODE_LBL => true
  | .CODE_SUB => true
  | .DATA_LBL => true
  | .NUMBER_WORD => true
  | .CODE_RELATIVE_LBL => true
  | .CODE_RELATIVE_LOOP => true
  | .NUMBER_BYTE => true
  | .PORT_LBL => true
  | .UNRECOGNIZED => false

/-- Source `Memory.getOpcodeAt`, parameterised by the opcode table `fromValue`:
decode the byte at `address` and resolve the operand value following the
`switch` on `opcode.valueType` of src/memory.ts lines 102–139.  The
`default: assert(false)` branch is embedded as `none`. -/
def Memory.getOpcodeAt (m : Memory) (fromValue : Nat → Opcode) (address : Nat) :
    Option Opcode :=
  let val := m.getValueAt address
  let opcode := fromValue val
  match opcode.valueType with
  | .NONE => some opcode
  | .CODE_LBL | .CODE_SUB | .DATA_LBL | .NUMBER_WORD =>
      some { opcode with value := (m.getWordValueAt (address + 1) : Int) }
  | .CODE_RELATIVE_LBL | .CODE_RELATIVE_LOOP =>
      let v0 : Int := (m.getValueAt (address + 1) : Int)
      let v1 : Int := if v0 ≥ 128 then v0 - 256 else v0
      some { opcode with value := v1 + ((address : Int) + 2) }
  | .NUMBER_BYTE =>
      let v0 : Int := (m.getValueAt (address + 1) : Int)
      let v1 : Int := if v0 ≥ 128 then v0 - 256 else v0
      some { opcode with value := v1 }
  | .PORT_LBL =>
      some { opcode with value := (m.getValueAt (address + 1) : Int) }
  | .UNRECOGNIZED => none

/-- Sign extension of an unsigned byte, as the spec words it: a following
byte `b` is reinterpreted as `b - 256` when `b ≥ 128`, else kept. -/
def signedByte (b : Nat) : Int :=
  if b ≥ 128 then (b : Int) - 256 else (b : Int)

/-! ## The `Regs` class of src/disassembler/regs.ts -/

namespace REGISTER

/-- Source `REGISTER.A = 0`. -/
def A : Nat := 0

/-- Source `REGISTER.F = 1`. -/
def F : Nat := 1

/-- Source `REGISTER.B = 2`. -/
def B : Nat := 2

/-- Source `REGISTER.C = 3`. -/
def C : Nat := 3

/-- Source `REGISTER.D = 4`. -/
def D : Nat := 4

/-- Source `REGISTER.E = 5`. -/
def E : Nat := 5

/-- Source `REGISTER.H = 6`. -/
def H : Nat := 6

/-- Source `REGISTER.L = 7`. -/
def L : Nat := 7

/-- Source `REGISTER.A2 = 8` (A'). -/
def A2 : Nat := 8

/-- Source `REGISTER.F2 = 9` (F'). -/
def F2 : Nat := 9

/-- Source `REGISTER.B2 = 10` (B'). -/
def B2 : Nat := 10

/-- Source `REGISTER.L2 = 15` (L'). -/
def L2 : Nat := 15

/-- Source `REGISTER.REGS_MAX = 20`, the count of registers. -/
def REGS_MAX : Nat := 20

end REGISTER

/-- The `Regs` class: the slot array `regs` (each entry a register number or
the "used" marker `-1`), the visited opcode addresses, the collected input
registers (a JavaScript `Set`, embedded as its insertion-order list) and the
simulated stack. -/
structure Regs where
  regs : List Int
  usedAddresses : List Nat
  inputRegs : List Nat
  stack : List Int
  deriving DecidableEq

/-- The `Regs` constructor: every slot holds its own register number
("unused"); the other fields start empty. -/
def Regs.new : Regs :=
  { regs := (List.range REGISTER.REGS_MAX).map (fun r => (r : Int)),
    usedAddresses := [],
    inputRegs := [],
    stack := [] }

/-- Read slot `r`: `this.regs[r]`.  The default of `getD` is the slot's own
register number; it is never reached on an instance whose slot array has its
constructor length. -/
def Regs.slotAt (s : Regs) (r : Nat) : Int :=
  s.regs.getD r ((r : Int))

/-- Source `Regs.isUsed`: `this.regs[r] != r`. -/
def Regs.isUsed (s : Regs) (r : Nat) : Bool :=
  s.slotAt r != (r : Int)

/-- Source `Regs.use`: mark register `r` used by storing `-1` in its slot. -/
def Regs.use (s : Regs) (r : Nat) : Regs :=
  { s with regs := s.regs.set r (-1) }

/-- Source `Regs.exxAF`: exchange the slots of A,F with those of A',F'
(`regs[A] ↔ regs[A2]`, `regs[F] ↔ regs[F2]`, via the temporaries `a`, `f`). -/
def Regs.exxAF (s : Regs) : Regs :=
  let a := s.slotAt REGISTER.A
  let f := s.slotAt REGISTER.F
  { s with regs :=
      (((s.regs.set REGISTER.A (s.slotAt REGISTER.A2)).set REGISTER.F
          (s.slotAt REGISTER.F2)).set REGISTER.A2 a).set REGISTER.F2 f }

/-- Source `Regs.exx`: for `r` from B to L, swap `regs[r]` with `regs[r + diff]`
where `diff = B2 - B = 8`, via the temporary `tmp`. -/
def Regs.exx (s : Regs) : Regs :=
  [2, 3, 4, 5, 6, 7].foldl
    (fun t r =>
      let tmp := t.slotAt r
      { t with regs := (t.regs.set r (t.slotAt (r + 8))).set (r + 8) tmp })
    s

/-- Source `Regs.usedRegs`: the set of registers `r < REGS_MAX` with
`regs[r] != r`. -/
def Regs.usedRegs (s : Regs) : Finset Nat :=
  (Finset.range REGISTER.REGS_MAX).filter (fun r => s.slotAt r ≠ (r : Int))

/-- Source `Regs.clone`: a fresh instance into which the slots are copied one by
one and `usedAddresses`, `inputRegs` and `stack` are copied element by
element. -/
def Regs.clone (s : Regs) : Regs :=
  { regs := (List.range REGISTER.REGS_MAX).map (fun r => s.slotAt r),
    usedAddresses := s.usedAddresses,
    inputRegs := s.inputRegs,
    stack := s.stack }

/-- Source `Regs.merge`: for every `r < REGS_MAX`, if `otherRegs.regs[r] != r`
copy `otherRegs.regs[r]` into `this.regs[r]`, else keep `this.regs[r]`;
the other fields are untouched. -/
def Regs.merge (s otherRegs : Regs) : Regs :=
  { s with regs :=
      (List.range REGISTER.REGS_MAX).map (fun r =>
        if otherRegs.slotAt r ≠ (r : Int) then otherRegs.slotAt r else s.slotAt r) }

/-- One traced-path operation on a `Regs` instance: `use`, the two bank
exchanges, or a merge with another instance. -/
inductive RegOp
  | use (r : Nat)
  | exxAF
  | exx
  | merge (o : Regs)

/-- Apply one operation. -/
def Regs.applyOp (s : Regs) : RegOp → Regs
  | .use r => s.use r
  | .exxAF => s.exxAF
  | .exx => s.exx
  | .merge o => s.merge o

/-- Apply a sequence of operations, left to right. -/
def Regs.applyOps (s : Regs) (ops : List RegOp) : Regs :=
  ops.foldl Regs.applyOp s

/-- The operations that are not bank exchanges. -/
def RegOp.noExchange : RegOp → Bool
  | .use _ => true
  | .exxAF => false
  | .exx => false
  | .merge _ => true

/-! ### A small object heap, to state aliasing properties of `clone`

JavaScript `Regs` instances are mutable heap objects; `clone` allocates a
new object.  The heap is a list of instances, a reference is an index. -/

/-- Allocate a clone of the object at reference `i`: the new heap and the
reference to the fresh object. -/
def cloneAt (h : List Regs) (i : Nat) : List Regs × Nat :=
  (h ++ [Regs.clone (h.getD i Regs.new)], h.length)

/-- In-place mutation of one slot of the object at reference `i`. -/
def setSlotAt (h : List Regs) (i r : Nat) (v : Int) : List Regs :=
  h.set i
    (let s := h.getD i Regs.new
     { s with regs := s.regs.set r v })

/-! ## Helper lemmas -/

theorem getD_map_range (n : Nat) (f : Nat → Int) (r : Nat) (d : Int) (h : r < n) :
    ((List.range n).map f).getD r d = f r := by
  simp [List.getD_eq_getElem?_getD, List.getElem?_map, List.getElem?_range h]

theorem getD_map_range_of_le (n : Nat) (f : Nat → Int) (r : Nat) (d : Int) (h : n ≤ r) :
    ((List.range n).map f).getD r d = d := by
  rw [List.getD_eq_getElem?_getD, List.getElem?_eq_none (by simpa using h)]
  rfl

theorem Regs.isUsed_eq_true_iff (s : Regs) (r : Nat) :
    s.isUsed r = true ↔ s.slotAt r ≠ (r : Int) := by
  simp [Regs.isUsed, bne_iff_ne]

theorem Regs.lt_length_of_isUsed (s : Regs) (r : Nat) (h : s.isUsed r = true) :
    r < s.regs.length := by
  by_contra hc
  push_neg at hc
  rw [Regs.isUsed_eq_true_iff] at h
  apply h
  unfold Regs.slotAt
  rw [List.getD_eq_getElem?_getD, List.getElem?_eq_none hc]
  rfl

theorem Regs.slotAt_merge (a b : Regs) (r : Nat) (h : r < REGISTER.REGS_MAX) :
    (a.merge b).slotAt r =
      if b.slotAt r ≠ (r : Int) then b.slotAt r else a.slotAt r := by
  conv_lhs => rw [Regs.slotAt, Regs.merge]
  rw [getD_map_range _ _ _ _ h]

theorem Regs.isUsed_use (s : Regs) (r r' : Nat) (h : s.isUsed r = true) :
    (s.use r').isUsed r = true := by
  have hlen := Regs.lt_length_of_isUsed s r h
  rw [Regs.isUsed_eq_true_iff] at h ⊢
  unfold Regs.use Regs.slotAt at *
  by_cases hrr : r' = r
  · subst hrr
    rw [List.getD_eq_getElem?_getD, List.getElem?_set_self (by simpa using hlen)]
    simp
  · rw [List.getD_eq_getElem?_getD, List.getElem?_set_ne hrr,
      ← List.getD_eq_getElem?_getD]
    exact h

theorem Regs.isUsed_merge (a b : Regs) (r : Nat) (hr : r < REGISTER.REGS_MAX)
    (h : a.isUsed r = true) : (a.merge b).isUsed r = true := by
  rw [Regs.isUsed_eq_true_iff] at h ⊢
  rw [Regs.slotAt_merge a b r hr]
  by_cases hb : b.slotAt r = (r : Int)
  · rw [if_neg (not_not_intro hb)]
    exact h
  · rw [if_pos hb]
    exact hb

theorem Regs.merge_usedRegs (a b : Regs) :
    (a.merge b).usedRegs = a.usedRegs ∪ b.usedRegs := by
  ext r
  simp only [Regs.usedRegs, Finset.mem_union, Finset.mem_filter, Finset.mem_range]
  by_cases hr : r < REGISTER.REGS_MAX
  · rw [Regs.slotAt_merge a b r hr]
    by_cases hb : b.slotAt r = (r : Int)
    · rw [if_neg (not_not_intro hb)]
      simp [hb, hr]
    · rw [if_pos hb]
      simp [hb, hr]
  · simp [hr]

theorem Regs.clone_eq_self (s : Regs) (hlen : s.regs.length = REGISTER.REGS_MAX) :
    s.clone = s := by
  unfold Regs.clone
  have hregs : (List.range REGISTER.REGS_MAX).map (fun r => s.slotAt r) = s.regs := by
    apply List.ext_getElem
    · simp [hlen]
    · intro n h1 h2
      simp only [List.getElem_map, List.getElem_range]
      unfold Regs.slotAt
      rw [List.getD_eq_getElem?_getD, List.getElem?_eq_getElem h2]
      rfl
  rw [hregs]

theorem getD_append_left_of_lt {α} (l1 l2 : List α) (n : Nat) (d : α)
    (h : n < l1.length) : (l1 ++ l2).getD n d = l1.getD n d := by
  rw [List.getD_eq_getElem?_getD, List.getElem?_append_left h,
    ← List.getD_eq_getElem?_getD]

theorem getD_append_at_len {α} (l1 : List α) (x d : α) :
    (l1 ++ [x]).getD l1.length d = x := by
  rw [List.getD_eq_getElem?_getD, List.getElem?_append_right (Nat.le_refl _)]
  simp

theorem getD_set_of_ne {α} (l : List α) (i j : Nat) (a d : α) (h : i ≠ j) :
    (l.set i a).getD j d = l.getD j d := by
  rw [List.getD_eq_getElem?_getD, List.getElem?_set_ne h,
    ← List.getD_eq_getElem?_getD]

/-! ## The claims -/

/-- C1, counterexample: the slot of register A does not evolve one-way under
the traced-path operations.  On a fresh instance one `exxAF` makes
`isUsed(A)` true, and a second `exxAF` (a subsequent operation of the
claimed set) reverts it to fresh. -/
theorem Regs.isUsed_not_monotone_under_exxAF :
    (Regs.new.applyOps [RegOp.exxAF]).isUsed REGISTER.A = true ∧
    (Regs.new.applyOps [RegOp.exxAF, RegOp.exxAF]).isUsed REGISTER.A = false := by
  decide

/-- C1 (amended): along one traced path, a register slot transitions
fresh → used strictly one-way under `use` (markUsed) and `merge`: once
`isUsed r` is true it stays true after every subsequent sequence of
non-exchange operations.  The bank exchanges `exxAF`/`exx` are slot
permutations, not monotone marks, and are excluded (see the
counterexample). -/
theorem Regs.isUsed_monotone_of_no_exchange (s : Regs) (ops : List RegOp) (r : Nat)
    (hr : r < REGISTER.REGS_MAX) (hops : ∀ op ∈ ops, op.noExchange = true)
    (h : s.isUsed r = true) : (s.applyOps ops).isUsed r = true := by
  revert hops
  induction ops generalizing s with
  | nil =>
      intro _
      exact h
  | cons op ops ih =>
      intro hops
      have hop : op.noExchange = true := hops op (List.mem_cons_self op ops)
      have hstep : (s.applyOp op).isUsed r = true := by
        cases op with
        | use r' => exact Regs.isUsed_use s r r' h
        | merge o => exact Regs.isUsed_merge s o r hr h
        | exxAF => simp [RegOp.noExchange] at hop
        | exx => simp [RegOp.noExchange] at hop
      have hrest : ∀ o ∈ ops, RegOp.noExchange o = true :=
        fun o ho => hops o (List.mem_cons_of_mem op ho)
      exact ih (s.applyOp op) hstep hrest

/-- C1, witness: a concrete used register stays used across a concrete
sequence of `use` and `merge` operations. -/
theorem Regs.isUsed_monotone_of_no_exchange_witness :
    REGISTER.B < REGISTER.REGS_MAX ∧
    (∀ op ∈ [RegOp.use REGISTER.C, RegOp.merge Regs.new], op.noExchange = true) ∧
    (Regs.new.use REGISTER.B).isUsed REGISTER.B = true ∧
    ((Regs.new.use REGISTER.B).applyOps
        [RegOp.use REGISTER.C, RegOp.merge Regs.new]).isUsed REGISTER.B = true :=
  ⟨by decide, by decide, by decide,
    Regs.isUsed_monotone_of_no_exchange (Regs.new.use REGISTER.B)
      [RegOp.use REGISTER.C, RegOp.merge Regs.new] REGISTER.B
      (by decide) (by decide) (by decide)⟩

/-- C3: `merge` is commutative and idempotent with respect to
`usedRegs`: the used-register set of `a.merge b` is the union of the two
used-register sets, coincides with that of `b.merge a`, and merging a state
with itself changes nothing. -/
theorem Regs.merge_commutative_idempotent_usedRegs (a b : Regs) :
    (a.merge b).usedRegs = a.usedRegs ∪ b.usedRegs ∧
    (a.merge b).usedRegs = (b.merge a).usedRegs ∧
    (a.merge a).usedRegs = a.usedRegs :=
  ⟨Regs.merge_usedRegs a b,
   by rw [Regs.merge_usedRegs, Regs.merge_usedRegs, Finset.union_comm],
   by rw [Regs.merge_usedRegs, Finset.union_self]⟩

/-- C8: `merge` leaves `inputRegs`, `usedAddresses` and `stack` of the
receiver exactly unchanged; only the slot array may change. -/
theorem Regs.merge_frame (a b : Regs) :
    (a.merge b).inputRegs = a.inputRegs ∧
    (a.merge b).usedAddresses = a.usedAddresses ∧
    (a.merge b).stack = a.stack :=
  ⟨rfl, rfl, rfl⟩

/-- C9: on the object heap, `clone` yields a new instance equal by value to
the original, and the two are independent: mutating any slot of the clone
leaves the original object — hence its `usedRegs` — unchanged, and vice
versa. -/
theorem Regs.clone_value_equal_and_independent (h : List Regs) (i r : Nat) (v : Int)
    (hi : i < h.length) (hlen : (h.getD i Regs.new).regs.length = REGISTER.REGS_MAX) :
    (cloneAt h i).1.getD (cloneAt h i).2 Regs.new = h.getD i Regs.new ∧
    ((setSlotAt (cloneAt h i).1 (cloneAt h i).2 r v).getD i Regs.new).usedRegs
      = (h.getD i Regs.new).usedRegs ∧
    ((setSlotAt (cloneAt h i).1 i r v).getD (cloneAt h i).2 Regs.new).usedRegs
      = ((cloneAt h i).1.getD (cloneAt h i).2 Regs.new).usedRegs := by
  have hni : h.length ≠ i := Nat.ne_of_gt hi
  simp only [cloneAt]
  refine ⟨(getD_append_at_len h _ Regs.new).trans (Regs.clone_eq_self _ hlen), ?_, ?_⟩
  · unfold setSlotAt
    rw [getD_set_of_ne _ _ _ _ _ hni, getD_append_left_of_lt h _ i Regs.new hi]
  · unfold setSlotAt
    rw [getD_set_of_ne _ _ _ _ _ (Ne.symm hni)]

/-- C9, witness: a concrete heap with one instance whose A-slot is used;
the clone equals it by value, and mutating slot 3 of either object leaves
the other object's `usedRegs` unchanged. -/
theorem Regs.clone_value_equal_and_independent_witness :
    0 < ([Regs.new.use REGISTER.A] : List Regs).length ∧
    (([Regs.new.use REGISTER.A] : List Regs).getD 0 Regs.new).regs.length
      = REGISTER.REGS_MAX ∧
    ((cloneAt [Regs.new.use REGISTER.A] 0).1.getD
        (cloneAt [Regs.new.use REGISTER.A] 0).2 Regs.new
      = ([Regs.new.use REGISTER.A] : List Regs).getD 0 Regs.new ∧
    ((setSlotAt (cloneAt [Regs.new.use REGISTER.A] 0).1
          (cloneAt [Regs.new.use REGISTER.A] 0).2 3 (-7)).getD 0 Regs.new).usedRegs
      = (([Regs.new.use REGISTER.A] : List Regs).getD 0 Regs.new).usedRegs ∧
    ((setSlotAt (cloneAt [Regs.new.use REGISTER.A] 0).1 0 3 (-7)).getD
          (cloneAt [Regs.new.use REGISTER.A] 0).2 Regs.new).usedRegs
      = ((cloneAt [Regs.new.use REGISTER.A] 0).1.getD
          (cloneAt [Regs.new.use REGISTER.A] 0).2 Regs.new).usedRegs) :=
  ⟨by decide, by decide,
    Regs.clone_value_equal_and_independent [Regs.new.use REGISTER.A] 0 3 (-7)
      (by decide) (by decide)⟩

/-- C10: on a freshly constructed instance, one `exxAF` makes A, F, A2 (A')
and F2 (F') all read as used (each slot now holds its partner's identity),
all four appear in `usedRegs`, and `inputRegs` stays empty. -/
theorem Regs.exxAF_fresh_marks_af_banks :
    (Regs.new.exxAF).isUsed REGISTER.A = true ∧
    (Regs.new.exxAF).isUsed REGISTER.F = true ∧
    (Regs.new.exxAF).isUsed REGISTER.A2 = true ∧
    (Regs.new.exxAF).isUsed REGISTER.F2 = true ∧
    REGISTER.A ∈ (Regs.new.exxAF).usedRegs ∧
    REGISTER.F ∈ (Regs.new.exxAF).usedRegs ∧
    REGISTER.A2 ∈ (Regs.new.exxAF).usedRegs ∧
    REGISTER.F2 ∈ (Regs.new.exxAF).usedRegs ∧
    (Regs.new.exxAF).inputRegs = [] := by
  decide

/-- A one-byte concrete memory image for witnesses: byte `b` at raw index
`addr`, 0 elsewhere, attributes untouched. -/
def byteAt (addr b : Nat) : Memory :=
  { memory := fun x => if x = addr then b else 0,
    memoryAttr := fun _ => none }

/-- A constant opcode table for witnesses: every byte decodes to an opcode
of operand kind `t`. -/
def constTable (t : LabelType) : Nat → Opcode :=
  fun _ => { valueType := t, value := 0 }

theorem signedByte_eq_int_cond (b : Nat) :
    signedByte b = if (b : Int) ≥ 128 then (b : Int) - 256 else (b : Int) := by
  unfold signedByte
  by_cases hb : b ≥ 128
  · rw [if_pos hb, if_pos (by exact_mod_cast hb)]
  · rw [if_neg hb, if_neg (by exact_mod_cast hb)]

/-- C2: evaluation of the attribute accessors at the wrap boundary.  The
source indexes `memoryAttr` with the raw, unmasked address: tagging 2 bytes
with `DATA` from 65535 leaves address 0 at `UNUSED` (the claim's ring
semantics would give `UNUSED ||| DATA` there) and instead ORs `DATA` into
the out-of-space index 65536. -/
theorem Memory.addAttributeAt_no_wrap_at_top :
    (Memory.init.addAttributeAt 65535 2 MemAttribute.DATA).getAttributeAt 0 =
      some MemAttribute.UNUSED ∧
    (Memory.init.addAttributeAt 65535 2 MemAttribute.DATA).getAttributeAt 65535 =
      some MemAttribute.DATA ∧
    (Memory.init.addAttributeAt 65535 2 MemAttribute.DATA).getAttributeAt 65536 =
      some MemAttribute.DATA ∧
    some (MemAttribute.UNUSED ||| MemAttribute.DATA) ≠ some MemAttribute.UNUSED := by
  refine ⟨?_, ?_, ?_, ?_⟩ <;> decide

/-- C4: whenever the decoded operand kind is signed-byte relative (relative
jump or relative loop branch), `getOpcodeAt` resolves the operand to the
absolute target `a + 2 + d` with `d` the sign-extended following byte. -/
theorem Memory.getOpcodeAt_relative_resolution (fromValue : Nat → Opcode)
    (m : Memory) (a : Nat)
    (hk : (fromValue (m.getValueAt a)).valueType = LabelType.CODE_RELATIVE_LBL ∨
          (fromValue (m.getValueAt a)).valueType = LabelType.CODE_RELATIVE_LOOP) :
    m.getOpcodeAt fromValue a =
      some { fromValue (m.getValueAt a) with
             value := (a : Int) + 2 + signedByte (m.getValueAt (a + 1)) } := by
  rcases hk with hk | hk <;>
  · simp only [Memory.getOpcodeAt, hk, Option.some.injEq, Opcode.mk.injEq, true_and]
    rw [signedByte_eq_int_cond]
    ring

/-- C4, witness: an opcode at address 0x1000 = 4096 of relative kind with
following byte 0xFE = 254 (−2 signed) resolves to 0x1000 + 2 − 2 = 0x1000. -/
theorem Memory.getOpcodeAt_relative_resolution_witness :
    ((constTable LabelType.CODE_RELATIVE_LBL
        ((byteAt 4097 254).getValueAt 4096)).valueType = LabelType.CODE_RELATIVE_LBL ∨
     (constTable LabelType.CODE_RELATIVE_LBL
        ((byteAt 4097 254).getValueAt 4096)).valueType = LabelType.CODE_RELATIVE_LOOP) ∧
    (byteAt 4097 254).getOpcodeAt (constTable LabelType.CODE_RELATIVE_LBL) 4096 =
      some { valueType := LabelType.CODE_RELATIVE_LBL, value := 4096 } :=
  ⟨Or.inl rfl,
    (Memory.getOpcodeAt_relative_resolution (constTable LabelType.CODE_RELATIVE_LBL)
        (byteAt 4097 254) 4096 (Or.inl rfl)).trans (by decide)⟩

/-- C5: a signed numeric-byte operand is the following byte sign-extended
(`b − 256` when `b ≥ 128`, unchanged otherwise), while a port-addressing
byte operand is returned unsigned with no conversion. -/
theorem Memory.getOpcodeAt_byte_operand (fromValue : Nat → Opcode)
    (m : Memory) (a : Nat) :
    ((fromValue (m.getValueAt a)).valueType = LabelType.NUMBER_BYTE →
      m.getOpcodeAt fromValue a =
        some { fromValue (m.getValueAt a) with
               value := signedByte (m.getValueAt (a + 1)) }) ∧
    ((fromValue (m.getValueAt a)).valueType = LabelType.PORT_LBL →
      m.getOpcodeAt fromValue a =
        some { fromValue (m.getValueAt a) with
               value := (m.getValueAt (a + 1) : Int) }) := by
  constructor
  · intro hk
    simp only [Memory.getOpcodeAt, hk]
    rw [signedByte_eq_int_cond]
  · intro hk
    simp only [Memory.getOpcodeAt, hk]

/-- C5, witness: following byte 0x80 = 128 becomes −128 as a numeric byte
but stays 128 as a port byte; bytes 0x7F and 0x00 are unchanged by the
sign conversion. -/
theorem Memory.getOpcodeAt_byte_operand_witness :
    (constTable LabelType.NUMBER_BYTE
        ((byteAt 1 128).getValueAt 0)).valueType = LabelType.NUMBER_BYTE ∧
    (byteAt 1 128).getOpcodeAt (constTable LabelType.NUMBER_BYTE) 0 =
      some { valueType := LabelType.NUMBER_BYTE, value := -128 } ∧
    (constTable LabelType.PORT_LBL
        ((byteAt 1 128).getValueAt 0)).valueType = LabelType.PORT_LBL ∧
    (byteAt 1 128).getOpcodeAt (constTable LabelType.PORT_LBL) 0 =
      some { valueType := LabelType.PORT_LBL, value := 128 } ∧
    signedByte 128 = -128 ∧ signedByte 127 = 127 ∧ signedByte 0 = 0 :=
  ⟨rfl,
    ((Memory.getOpcodeAt_byte_operand (constTable LabelType.NUMBER_BYTE)
        (byteAt 1 128) 0).1 rfl).trans (by decide),
    rfl,
    ((Memory.getOpcodeAt_byte_operand (constTable LabelType.PORT_LBL)
        (byteAt 1 128) 0).2 rfl).trans (by decide),
    by decide, by decide, by decide⟩

/-- C6: for every memory and every address, `getWordValueAt` is the
little-endian combination of the two wrapped byte reads:
`readWord(a) = readByte(a) + 256 * readByte(a+1)`, both indices taken
modulo 65536 — in particular at the wrap boundary `a = 65535`. -/
theorem Memory.getWordValueAt_little_endian (m : Memory) (a : Nat) :
    m.getWordValueAt a = m.getValueAt a + 256 * m.getValueAt (a + 1) :=
  rfl

/-- C7: `getOpcodeAt` hits the `default: assert(false)` branch — embedded
as `none`, the process abort — exactly when the decoded operand kind lies
outside the recognized set; for every recognized kind it returns a
descriptor. -/
theorem Memory.getOpcodeAt_assert_iff_unrecognized (fromValue : Nat → Opcode)
    (m : Memory) (a : Nat) :
    m.getOpcodeAt fromValue a = none ↔
      recognizedKind (fromValue (m.getValueAt a)).valueType = false := by
  cases hk : (fromValue (m.getValueAt a)).valueType <;>
    simp [Memory.getOpcodeAt, hk, recognizedKind]

end Z80
